import Mathlib

/-!
Shallow embedding of the execution-and-accounting core of the
`bachelorarbeit-drl-finance` repository, together with theorems settling the
frozen claims about it.

Conventions of the embedding:
* pandas Series/DataFrame columns over a key set `K` become Lean functions
  `K → ℚ`; a column that may be absent from a frame becomes
  `Option (K → ℚ)` (a missing column is how pandas raises `KeyError`).
* all float arithmetic is modelled exactly over `ℚ`; `fillna` calls are
  no-ops in the embedding because `ℚ` has no NaN (noted per definition).
* fallible code (`KeyError` / `AttributeError` on a missing column) becomes
  `Except String _`.
-/

namespace DrlFinance

/-- Epsilon guard from `src/portfolio/portfolio.py` (`EPS = 1e-12`). -/
def EPS : ℚ := 1 / 10 ^ 12

/-! ## `src/execution/execution.py` -/

namespace Execution

/-- Model of `half_spread_price` from `src/execution/execution.py`: buy (`side >= 0`)
pays `p_ref * (1 + 0.5*spread)`, sell (`side < 0`) receives
`p_ref * (1 - 0.5*spread)`.  This version applies the spread it is given,
with no clamp inside the function. -/
def half_spread_price (p_ref side spread : ℚ) : ℚ :=
  if 0 ≤ side then p_ref * (1 + (1/2) * spread) else p_ref * (1 - (1/2) * spread)

/-- Model of `round_shares` from `src/execution/execution.py`: buys floor, sells ceil,
zero stays zero (`q.fillna(0)` is a no-op over `ℚ`).  `lot` is the integer
lot size; the source computes `floor(q/lot)*lot` resp. `ceil(q/lot)*lot`. -/
def round_shares (q : ℚ) (lot : ℤ) : ℚ :=
  if 0 < q then (⌊q / (lot : ℚ)⌋ : ℚ) * (lot : ℚ)
  else if q < 0 then (⌈q / (lot : ℚ)⌉ : ℚ) * (lot : ℚ)
  else 0

/-- The price panel columns `apply_execution` touches.  Each present column is
a total map from the `(date, asset)` key set `K` to a price; a column the
frame does not carry is `none`.  (`open` is a Lean keyword, hence `open_px`;
`close_px` likewise mirrors the `close` column.) -/
structure Panel (K : Type) where
  open_px : Option (K → ℚ)
  close_px : Option (K → ℚ)
  exec_ref_tplus1 : Option (K → ℚ)
  spread_cs : Option (K → ℚ)

/-- One output row of `apply_execution` (columns
`['q','p_ref','p_exec','notional_abs','spread_cost']`, keyed by `key`). -/
structure TradeRecord (K : Type) where
  key : K
  q : ℚ
  p_ref : ℚ
  p_exec : ℚ
  notional_abs : ℚ
  spread_cost : ℚ
deriving DecidableEq

/-- Model of `apply_execution` from `src/execution/execution.py`.  The order frame is
modelled as the list of `(key, raw signed quantity)` pairs of its `order_col`
column after `reindex(idx).fillna(0)` (both no-ops on the frame's own index
over `ℚ`).  A missing reference-price column raises `KeyError` in the source
(`prices[p_ref_col]`), modelled as `.error`; with `use_cs_spread=True` and no
`spread_cs` column the source's `prices.get("spread_cs", 0).reindex(idx)`
raises `AttributeError` on the scalar default, also modelled as `.error`.
`allow_short` is accepted but unused, exactly as in the source; the final
`sort_index()` only permutes rows and is not modelled (row order follows the
order list). -/
def apply_execution {K : Type} (prices : Panel K) (orders : List (K × ℚ))
    (use_tplus1 : Bool) (use_cs_spread : Bool) (fixed_spread_bps : Option ℚ)
    (allow_short : Bool) (lot_size : ℤ) : Except String (List (TradeRecord K)) :=
  let _ := allow_short
  match (if use_tplus1 then prices.exec_ref_tplus1 else prices.open_px) with
  | none => Except.error (if use_tplus1 then "KeyError: exec_ref_tplus1"
                          else "KeyError: open")
  | some p_ref =>
    let spreadE : Except String (K → ℚ) :=
      if use_cs_spread then
        match prices.spread_cs with
        | some s => Except.ok (fun k => max (s k) 0)
        | none => Except.error "AttributeError: spread_cs column missing"
      else
        match fixed_spread_bps with
        | some bps => Except.ok (fun _ => bps / 10 ^ 4)
        | none => Except.ok (fun _ => 0)
    match spreadE with
    | Except.error e => Except.error e
    | Except.ok spread =>
      Except.ok <| orders.map fun ko =>
        let q := round_shares ko.2 lot_size
        let p_exec := half_spread_price (p_ref ko.1) q (spread ko.1)
        { key := ko.1, q := q, p_ref := p_ref ko.1, p_exec := p_exec,
          notional_abs := |q| * p_exec,
          spread_cost := |q| * p_ref ko.1 * (1/2) * spread ko.1 }

end Execution

/-! ## `src/execution/fees.py` -/

namespace Fees

/-- Model of `_bps_to_frac` from `src/execution/fees.py`. -/
def _bps_to_frac (x : ℚ) : ℚ := x / 10 ^ 4

/-- A row of the fee-augmented trade table: the trade record plus
`fees`, `vol_slip` and `total_cost`. -/
structure FeeTrade (K : Type) extends Execution.TradeRecord K where
  fees : ℚ
  vol_slip : ℚ
  total_cost : ℚ
deriving DecidableEq

/-- The per-row computation of `apply_fees` from `src/execution/fees.py`:
commission `notional_abs * commission_bps/1e4`, clamped up to `min_fee_abs`
when that floor is positive (`if min_fee_abs and min_fee_abs > 0`), plus
optional volatility slippage `|q| * p_ref * (k_bps_per_sigma*sigma)/1e4`
(missing sigma values are `fillna(0)`; a totally absent series means no
slippage). -/
def apply_fees_row {K : Type} (commission_bps min_fee_abs : ℚ)
    (use_vol_slippage : Bool) (sigma_hl : Option (K → ℚ)) (k_bps_per_sigma : ℚ)
    (t : Execution.TradeRecord K) : FeeTrade K :=
  let fees0 := t.notional_abs * _bps_to_frac commission_bps
  let fees := if 0 < min_fee_abs then max fees0 min_fee_abs else fees0
  let vol_slip :=
    match use_vol_slippage, sigma_hl with
    | true, some s => |t.q| * t.p_ref * _bps_to_frac (k_bps_per_sigma * s t.key)
    | _, _ => 0
  { toTradeRecord := t, fees := fees, vol_slip := vol_slip,
    total_cost := t.spread_cost + fees + vol_slip }

/-- Model of `apply_fees` from `src/execution/fees.py`: a pure row-wise overlay on the
trade table (the source's vectorised column assignments, row by row).  It
never mutates its input (`trades.copy()`); here it returns a new list. -/
def apply_fees {K : Type} (trades : List (Execution.TradeRecord K))
    (commission_bps min_fee_abs : ℚ) (use_vol_slippage : Bool)
    (sigma_hl : Option (K → ℚ)) (k_bps_per_sigma : ℚ) : List (FeeTrade K) :=
  trades.map (apply_fees_row commission_bps min_fee_abs use_vol_slippage
    sigma_hl k_bps_per_sigma)

end Fees

/-! ## `src/portfolio/execution.py` (sibling module of `PortfolioLite`) -/

namespace PortfolioExecution

/-- Model of `half_spread_price` from `src/portfolio/execution.py`.  Unlike the
`src/execution/execution.py` version, this one clamps the spread to be
non-negative before use (`spread.fillna(0).clip(lower=0)`; `side.fillna(0)`
and `fillna` are no-ops over `ℚ`). -/
def half_spread_price (p_ref side spread : ℚ) : ℚ :=
  let spread' := max spread 0
  if 0 ≤ side then p_ref * (1 + (1/2) * spread') else p_ref * (1 - (1/2) * spread')

end PortfolioExecution

/-! ## `src/portfolio/fees.py` (sibling module of `PortfolioLite`) -/

namespace PortfolioFees

/-- Model of `_bps` from `src/portfolio/fees.py`. -/
def _bps (x : ℚ) : ℚ := x / 10 ^ 4

/-- Per-row computation of `apply_fees` from `src/portfolio/fees.py`: like the
`src/execution/fees.py` model but with no minimum-fee floor. -/
def apply_fees_row {K : Type} (commission_bps : ℚ) (use_vol_slippage : Bool)
    (sigma_hl : Option (K → ℚ)) (k_bps_per_sigma : ℚ)
    (t : Execution.TradeRecord K) : Fees.FeeTrade K :=
  let fees := t.notional_abs * _bps commission_bps
  let vol_slip :=
    match use_vol_slippage, sigma_hl with
    | true, some s => |t.q| * t.p_ref * _bps (k_bps_per_sigma * s t.key)
    | _, _ => 0
  { toTradeRecord := t, fees := fees, vol_slip := vol_slip,
    total_cost := t.spread_cost + fees + vol_slip }

/-- Model of `apply_fees` from `src/portfolio/fees.py`, row-wise over the trade table. -/
def apply_fees {K : Type} (trades : List (Execution.TradeRecord K))
    (commission_bps : ℚ) (use_vol_slippage : Bool)
    (sigma_hl : Option (K → ℚ)) (k_bps_per_sigma : ℚ) : List (Fees.FeeTrade K) :=
  trades.map (apply_fees_row commission_bps use_vol_slippage sigma_hl k_bps_per_sigma)

end PortfolioFees

/-! ## `src/portfolio/portfolio.py` — the `PortfolioLite` state machine -/

namespace Portfolio

/-- The mutable state of `PortfolioLite` over `n` tracked assets:
`cash`, per-asset `shares`, `value` and derived `weights`. -/
structure PState (n : ℕ) where
  cash : ℚ
  shares : Fin n → ℚ
  value : ℚ
  weights : Fin n → ℚ
deriving DecidableEq

/-- Model of `PortfolioLite.reset`: initial cash, zero shares, value = cash,
zero weights. -/
def reset (n : ℕ) (initial_cash : ℚ) : PState n :=
  { cash := initial_cash, shares := fun _ => 0, value := initial_cash,
    weights := fun _ => 0 }

/-- The shape of the `(weights, info)` return the `step` method is written
to produce at lines 57-59 (`value_pre` would be the `P_t` of line 26,
`value_pre_rebalance` the `Ppre` of line 28).  No call ever reaches that
return: see `step`. -/
structure StepOut (n : ℕ) where
  state : PState n
  value_pre : ℚ
  value_pre_rebalance : ℚ
  q : Fin n → ℚ
  pexec : Fin n → ℚ
  fees_total : ℚ

/-- Model of `PortfolioLite.step` from `src/portfolio/portfolio.py`.

Inputs mirror the method: `px_t` is the current-interval mark series,
`mark1`, `ref1`, `spread1` are the `col_mark`, `col_ref`, `col_spread`
columns of `px_t1` (a frame without the spread column yields the zero
series through `px_t1.get`, which a caller models by `spread1 = 0`), and
`w_target` the target weights.

Lines 26-48 execute: pre-rebalance values, weight clip/normalisation,
target shares, trade quantities, execution prices and the trades frame.
The injected execution module must be `src/execution/execution.py` — the
portfolio sibling's `half_spread_price` calls `side.fillna` on the scalar
side `+1`/`-1` passed at lines 43-44 and would raise `AttributeError` — so
the spread reaches the pricing unclamped.  Line 49 then evaluates
`float(self.fees.apply_fees(trades, **self.fee_kwargs))`: with either
repository fee module `apply_fees` returns a DataFrame (modelled here with
the sibling `src/portfolio/fees.py`), and `float()` of a DataFrame raises
`TypeError`, so the state update (lines 52-55) and the return (line 59)
are unreachable — every call fails. -/
def step {n : ℕ} (allow_short : Bool) (commission_bps : ℚ)
    (use_vol_slippage : Bool) (sigma_hl : Option (Fin n → ℚ))
    (k_bps_per_sigma : ℚ) (st : PState n) (px_t : Fin n → ℚ)
    (mark1 ref1 spread1 : Fin n → ℚ) (w_target : Fin n → ℚ) :
    Except String (StepOut n) :=
  -- 1) values before rebalancing (lines 26-28)
  let P_t := st.cash + ∑ i, st.shares i * px_t i
  let Ppre := st.cash + ∑ i, st.shares i * mark1 i
  -- 2) target weights (clip/norm, lines 31-32)
  let w0 := if allow_short then w_target else fun i => max (w_target i) 0
  let w := fun i => w0 i / max (∑ j, w0 j) EPS
  -- 3) target shares at the t+1 mark (`replace(0, nan)` then `fillna(0)`,
  --    lines 35-37)
  let target_shares := fun i => if mark1 i = 0 then 0 else w i * Ppre / mark1 i
  let q := fun i => target_shares i - st.shares i
  -- 4) execution prices (lines 40-44, raw spread: see the doc comment) and
  --    the trades frame (lines 46-48)
  let pexec := fun i =>
    if 0 < q i then Execution.half_spread_price (ref1 i) 1 (spread1 i)
    else if q i < 0 then Execution.half_spread_price (ref1 i) (-1) (spread1 i)
    else ref1 i
  let trades : List (Execution.TradeRecord (Fin n)) :=
    (List.finRange n).map fun i =>
      { key := i, q := q i, p_ref := ref1 i, p_exec := pexec i,
        notional_abs := |q i| * pexec i,
        spread_cost := |q i| * ref1 i * (1/2) * spread1 i }
  -- line 49: `apply_fees` succeeds and yields the fee table…
  let fee_table := PortfolioFees.apply_fees trades commission_bps
    use_vol_slippage sigma_hl k_bps_per_sigma
  -- …but `float()` of that DataFrame raises, so lines 52-59 never run
  let _ := P_t
  let _ := fee_table
  Except.error
    "TypeError: float() argument must be a string or a real number, not DataFrame"

end Portfolio

/-! ## `src/data/build_clean.py` — the Cash Asset Synthesizer -/

namespace BuildClean

/-- The `days_to_next` series of `_build_cash_asset`: calendar-day distance
to the next trading date (`date_series.shift(-1) - date_series`), with the
last entry `fillna(1)`.  Dates are modelled as integer day numbers. -/
def days_to_next (dates : List ℤ) : List ℤ :=
  if dates.isEmpty then []
  else (List.zipWith (fun a b => b - a) dates dates.tail) ++ [1]

/-- The per-interval compounding factor series of `_build_cash_asset`:
`factor = 1 + rf * (days_to_next / day_count)` with the final entry
overwritten by `factor.iloc[-1] = 1.0`.  `rf` is the risk-free rate as-of
each date (the source's `reindex(dates).ffill()` resolves a partial series
to exactly such a per-date function). -/
def cash_factors (dates : List ℤ) (rf : ℤ → ℚ) (day_count : ℚ) : List ℚ :=
  let raw := List.zipWith (fun d (delta : ℤ) => 1 + rf d * ((delta : ℚ) / day_count))
    dates (days_to_next dates)
  raw.set (raw.length - 1) 1

end BuildClean

/-! ## Concrete fixtures used by witnesses and counterexamples -/

namespace Ex

/-- Single-asset portfolio with 1000 cash and no shares. -/
def st0 : Portfolio.PState 1 := Portfolio.reset 1 1000

/-- Constant mark/reference price 100. -/
def mark100 : Fin 1 → ℚ := fun _ => 100

/-- Relative spread of 2% (forces a visible spread cost). -/
def spreadPos : Fin 1 → ℚ := fun _ => 1 / 50

/-- Target weight 1 on the single asset. -/
def wOne : Fin 1 → ℚ := fun _ => 1

/-- Price panel over `ℕ` keys with reference price 100, spread 0.002,
open 99.5, close 99. -/
def panelA : Execution.Panel ℕ :=
  { open_px := some fun _ => 995 / 10, close_px := some fun _ => 99,
    exec_ref_tplus1 := some fun _ => 100, spread_cs := some fun _ => 1 / 500 }

/-- A panel agreeing with `panelA` on `exec_ref_tplus1` and `spread_cs` but
with a different open column and no close column at all. -/
def panelB : Execution.Panel ℕ :=
  { open_px := some fun _ => 200, close_px := none,
    exec_ref_tplus1 := some fun _ => 100, spread_cs := some fun _ => 1 / 500 }

/-- Panel with a populated zero spread column. -/
def panelZeroSpread : Execution.Panel ℕ :=
  { open_px := some fun _ => 995 / 10, close_px := some fun _ => 99,
    exec_ref_tplus1 := some fun _ => 100, spread_cs := some fun _ => 0 }

/-- Panel whose `exec_ref_tplus1` column is absent. -/
def panelNoRef : Execution.Panel ℕ :=
  { open_px := some fun _ => 995 / 10, close_px := some fun _ => 99,
    exec_ref_tplus1 := none, spread_cs := some fun _ => 1 / 500 }

/-- A single raw order of 10.7 shares on key 0. -/
def ordersA : List (ℕ × ℚ) := [(0, 107 / 10)]

/-- The trade table `apply_execution` produces from `panelZeroSpread` and
`ordersA`: 10 shares at 100 with no spread cost. -/
def tradesZeroSpread : List (Execution.TradeRecord ℕ) :=
  [{ key := 0, q := 10, p_ref := 100, p_exec := 100,
     notional_abs := 1000, spread_cost := 0 }]

/-- A trade table with a zero-quantity row and a normal row. -/
def tradesWithZeroRow : List (Execution.TradeRecord ℕ) :=
  [{ key := 0, q := 0, p_ref := 100, p_exec := 100,
     notional_abs := 0, spread_cost := 0 },
   { key := 1, q := 10, p_ref := 100, p_exec := 1001 / 10,
     notional_abs := 1001, spread_cost := 1 }]

end Ex

/-! ## Claim C4 — half-spread pricing formula -/

/-- Claim C4: for every reference price, side and non-negative spread, both
implementations of `half_spread_price` return
`reference_price * (1 + 0.5*spread)` when `side ≥ 0` and
`reference_price * (1 - 0.5*spread)` when `side < 0`; in particular for
`p_ref = 100` and `spread = 0.002` a buy yields `100.1` and a sell `99.9`. -/
theorem half_spread_price_spec (p_ref side spread : ℚ) (hs : 0 ≤ spread) :
    (Execution.half_spread_price p_ref side spread =
      if 0 ≤ side then p_ref * (1 + (1/2) * spread)
      else p_ref * (1 - (1/2) * spread))
    ∧ (PortfolioExecution.half_spread_price p_ref side spread =
      if 0 ≤ side then p_ref * (1 + (1/2) * spread)
      else p_ref * (1 - (1/2) * spread))
    ∧ Execution.half_spread_price 100 1 (1/500) = 1001/10
    ∧ Execution.half_spread_price 100 (-1) (1/500) = 999/10 := by
  refine ⟨rfl, ?_, by norm_num [Execution.half_spread_price],
    by norm_num [Execution.half_spread_price]⟩
  unfold PortfolioExecution.half_spread_price
  rw [max_eq_left hs]

/-- Witness for C4 at `p_ref = 100`, `side = 1`, `spread = 1/500`. -/
theorem half_spread_price_spec_witness :
    (0:ℚ) ≤ 1/500 ∧
    ((Execution.half_spread_price 100 1 (1/500) =
      if (0:ℚ) ≤ 1 then 100 * (1 + (1/2) * (1/500))
      else 100 * (1 - (1/2) * (1/500)))
    ∧ (PortfolioExecution.half_spread_price 100 1 (1/500) =
      if (0:ℚ) ≤ 1 then 100 * (1 + (1/2) * (1/500))
      else 100 * (1 - (1/2) * (1/500)))
    ∧ Execution.half_spread_price 100 1 (1/500) = 1001/10
    ∧ Execution.half_spread_price 100 (-1) (1/500) = 999/10) :=
  ⟨by simp, half_spread_price_spec 100 1 (1/500) (by simp)⟩

/-! ## Claim C5 — lot rounding policy -/

/-- Claim C5 counterexample: with `lot_size = 5` a raw sell of `-12` rounds
to `-10` (ceil toward zero), not to the `-15` the claim states. -/
theorem round_shares_neg12_lot5 : Execution.round_shares (-12) 5 ≠ -15 := by
  norm_num [Execution.round_shares, Int.ceil_neg]

/-- Claim C5 (amended): buys round down to the greatest lot multiple below,
sells round up to the least lot multiple above (toward zero), zero stays
zero; concretely `10.7 ↦ 10`, `-10.7 ↦ -10`, `12 ↦ 10` and `-12 ↦ -10`
(not `-15`) at lot 5. -/
theorem round_shares_policy (q : ℚ) (lot : ℤ) (hlot : 0 < lot) :
    ((0 < q → ∃ m : ℤ, Execution.round_shares q lot = (m : ℚ) * (lot : ℚ) ∧
        (m : ℚ) * (lot : ℚ) ≤ q ∧ q < ((m : ℚ) + 1) * (lot : ℚ))
    ∧ (q < 0 → ∃ m : ℤ, Execution.round_shares q lot = (m : ℚ) * (lot : ℚ) ∧
        q ≤ (m : ℚ) * (lot : ℚ) ∧ ((m : ℚ) - 1) * (lot : ℚ) < q)
    ∧ (q = 0 → Execution.round_shares q lot = 0))
    ∧ Execution.round_shares (107/10) 1 = 10
    ∧ Execution.round_shares (-107/10) 1 = -10
    ∧ Execution.round_shares 12 5 = 10
    ∧ Execution.round_shares (-12) 5 = -10 := by
  have hl : (0:ℚ) < (lot : ℚ) := by exact_mod_cast hlot
  refine ⟨⟨?_, ?_, ?_⟩, by norm_num [Execution.round_shares],
    by norm_num [Execution.round_shares, Int.ceil_neg],
    by norm_num [Execution.round_shares],
    by norm_num [Execution.round_shares, Int.ceil_neg]⟩
  · intro hq
    refine ⟨⌊q / (lot : ℚ)⌋, ?_, ?_, ?_⟩
    · simp only [Execution.round_shares, if_pos hq]
    · exact (le_div_iff₀ hl).mp (Int.floor_le (q / (lot : ℚ)))
    · have h1 : q / (lot : ℚ) < (⌊q / (lot : ℚ)⌋ : ℚ) + 1 :=
        Int.lt_floor_add_one _
      exact (div_lt_iff₀ hl).mp h1
  · intro hq
    refine ⟨⌈q / (lot : ℚ)⌉, ?_, ?_, ?_⟩
    · simp only [Execution.round_shares, if_neg (not_lt.mpr hq.le), if_pos hq]
    · exact (div_le_iff₀ hl).mp (Int.le_ceil (q / (lot : ℚ)))
    · have h1 : (⌈q / (lot : ℚ)⌉ : ℚ) - 1 < q / (lot : ℚ) := by
        have := Int.ceil_lt_add_one (q / (lot : ℚ))
        linarith
      exact (lt_div_iff₀ hl).mp h1
  · intro hq
    simp [Execution.round_shares, hq]

/-- Witness for C5 (amended) at `q = -12`, `lot = 5`. -/
theorem round_shares_policy_witness :
    (0:ℤ) < 5 ∧
    (((0 < (-12:ℚ) → ∃ m : ℤ, Execution.round_shares (-12) 5 = (m : ℚ) * ((5:ℤ) : ℚ) ∧
        (m : ℚ) * ((5:ℤ) : ℚ) ≤ (-12:ℚ) ∧ (-12:ℚ) < ((m : ℚ) + 1) * ((5:ℤ) : ℚ))
    ∧ ((-12:ℚ) < 0 → ∃ m : ℤ, Execution.round_shares (-12) 5 = (m : ℚ) * ((5:ℤ) : ℚ) ∧
        (-12:ℚ) ≤ (m : ℚ) * ((5:ℤ) : ℚ) ∧ ((m : ℚ) - 1) * ((5:ℤ) : ℚ) < (-12:ℚ))
    ∧ ((-12:ℚ) = 0 → Execution.round_shares (-12) 5 = 0))
    ∧ Execution.round_shares (107/10) 1 = 10
    ∧ Execution.round_shares (-107/10) 1 = -10
    ∧ Execution.round_shares 12 5 = 10
    ∧ Execution.round_shares (-12) 5 = -10) :=
  ⟨by decide, round_shares_policy (-12) 5 (by decide)⟩

/-! ## Claim C6 — negative spread estimates -/

/-- Claim C6 counterexample: the `src/execution/execution.py` version of
`half_spread_price` does not clamp a negative spread — a buy at spread
`-0.002` is priced at `99.9`, not at the spread-zero price `100`. -/
theorem half_spread_price_no_clamp :
    Execution.half_spread_price 100 1 (-(1/500)) ≠
      Execution.half_spread_price 100 1 0 := by
  norm_num [Execution.half_spread_price]

/-- Claim C6 (amended): the clamp-to-zero of a negative spread estimate
holds for the portfolio module's `half_spread_price` (which clips inside the
function) and for `apply_execution` (which clips the panel's spread column
before pricing); the execution module's bare `half_spread_price` applies the
raw spread unclamped. -/
theorem negative_spread_clamped (p_ref side s : ℚ) (hneg : s < 0) :
    (PortfolioExecution.half_spread_price p_ref side s =
      PortfolioExecution.half_spread_price p_ref side 0)
    ∧ (∀ {K : Type} (P : Execution.Panel K) (sc : K → ℚ)
        (orders : List (K × ℚ)) (fsb : Option ℚ) (als : Bool) (lot : ℤ),
        P.spread_cs = some sc →
        Execution.apply_execution P orders true true fsb als lot =
          Execution.apply_execution
            { P with spread_cs := some fun k => max (sc k) 0 }
            orders true true fsb als lot) := by
  constructor
  · unfold PortfolioExecution.half_spread_price
    rw [max_eq_right hneg.le, max_self]
  · intro K P sc orders fsb als lot hsc
    unfold Execution.apply_execution
    simp only [hsc, if_true, max_assoc, max_self]

/-- Witness for C6 (amended) at `p_ref = 100`, `side = 1`, `s = -1/500`. -/
theorem negative_spread_clamped_witness :
    (-(1/500) : ℚ) < 0 ∧
    ((PortfolioExecution.half_spread_price 100 1 (-(1/500)) =
      PortfolioExecution.half_spread_price 100 1 0)
    ∧ (∀ {K : Type} (P : Execution.Panel K) (sc : K → ℚ)
        (orders : List (K × ℚ)) (fsb : Option ℚ) (als : Bool) (lot : ℤ),
        P.spread_cs = some sc →
        Execution.apply_execution P orders true true fsb als lot =
          Execution.apply_execution
            { P with spread_cs := some fun k => max (sc k) 0 }
            orders true true fsb als lot)) :=
  ⟨by simp, negative_spread_clamped 100 1 (-(1/500)) (by simp)⟩

/-! ## Claim C7 — cash asset terminal compounding factor -/

/-- Helper: overwriting the last entry of a non-empty list pins its last
element. -/
theorem getLast?_set_last : ∀ (l : List ℚ) (a : ℚ), l ≠ [] →
    (l.set (l.length - 1) a).getLast? = some a
  | [], _, h => absurd rfl h
  | [_], _, _ => rfl
  | x :: y :: t, a, _ => by
    have ih := getLast?_set_last (y :: t) a (by simp)
    have hcons : (x :: y :: t).set ((x :: y :: t).length - 1) a =
        x :: (y :: t).set ((y :: t).length - 1) a := by
      simp [List.length_cons]
    rw [hcons]
    rcases hset : (y :: t).set ((y :: t).length - 1) a with _ | ⟨b, r⟩
    · exact absurd hset (by simp)
    · rw [hset] at ih
      rw [List.getLast?_cons_cons]
      exact ih

/-- Claim C7: for every non-empty date sequence and every risk-free rate
series, the Cash Asset Synthesizer's per-interval compounding factor on the
final date is exactly 1, regardless of the rate on that date
(`factor.iloc[-1] = 1.0`). -/
theorem cash_terminal_factor (dates : List ℤ) (rf : ℤ → ℚ) (day_count : ℚ)
    (h : dates ≠ []) :
    (BuildClean.cash_factors dates rf day_count).getLast? = some 1 := by
  unfold BuildClean.cash_factors
  apply getLast?_set_last
  have hlen : (BuildClean.days_to_next dates).length = dates.length := by
    unfold BuildClean.days_to_next
    rw [if_neg (by simpa using h)]
    rcases dates with _ | ⟨d, ds⟩
    · exact absurd rfl h
    · simp [List.length_zipWith]
  intro hnil
  have := congrArg List.length hnil
  rw [List.length_zipWith, hlen, min_self] at this
  exact h (List.eq_nil_of_length_eq_zero this)

/-- Witness for C7 on the date sequence `[0, 3, 7]` with constant rate 5. -/
theorem cash_terminal_factor_witness :
    ([0, 3, 7] : List ℤ) ≠ [] ∧
    (BuildClean.cash_factors [0, 3, 7] (fun _ => 5) 360).getLast? = some 1 :=
  ⟨by simp, cash_terminal_factor [0, 3, 7] (fun _ => 5) 360 (by simp)⟩

/-! ## Claim C8 — missing reference-price column fails fast -/

/-- Claim C8: when the required reference-price column (`exec_ref_tplus1`
under `use_tplus1`, else `open`) is absent from the price panel,
`apply_execution` raises (a `KeyError` in the source, `.error` here) and
never returns a trade table. -/
theorem missing_ref_column_fails {K : Type} (P : Execution.Panel K)
    (orders : List (K × ℚ)) (use_tplus1 ucs : Bool) (fsb : Option ℚ)
    (als : Bool) (lot : ℤ)
    (h : (if use_tplus1 then P.exec_ref_tplus1 else P.open_px) = none) :
    (∃ e, Execution.apply_execution P orders use_tplus1 ucs fsb als lot =
      Except.error e)
    ∧ ∀ trades, Execution.apply_execution P orders use_tplus1 ucs fsb als lot ≠
      Except.ok trades := by
  unfold Execution.apply_execution
  rw [h]
  exact ⟨⟨_, rfl⟩, fun trades => by simp⟩

/-- Witness for C8 on a concrete panel with no `exec_ref_tplus1` column. -/
theorem missing_ref_column_fails_witness :
    (if true then Ex.panelNoRef.exec_ref_tplus1 else Ex.panelNoRef.open_px) = none ∧
    ((∃ e, Execution.apply_execution Ex.panelNoRef Ex.ordersA true true none false 1 =
      Except.error e)
    ∧ ∀ trades, Execution.apply_execution Ex.panelNoRef Ex.ordersA true true none false 1 ≠
      Except.ok trades) :=
  ⟨rfl, missing_ref_column_fails Ex.panelNoRef Ex.ordersA true true none false 1 rfl⟩

/-! ## Claim C10 — minimum absolute fee floor -/

/-- Claim C10: with a positive `min_fee_abs`, `apply_fees` charges at least
`min_fee_abs` as commission on every row, and a row with quantity exactly 0
(hence zero notional and zero spread cost in a well-formed trade record)
still carries `fees = min_fee_abs` and `total_cost ≥ min_fee_abs`. -/
theorem min_fee_floor {K : Type} (trades : List (Execution.TradeRecord K))
    (c minf : ℚ) (uv : Bool) (sig : Option (K → ℚ)) (kb : ℚ)
    (hm : 0 < minf) :
    (∀ t ∈ Fees.apply_fees trades c minf uv sig kb, minf ≤ t.fees)
    ∧ (∀ t : Execution.TradeRecord K, t.q = 0 → t.notional_abs = 0 →
        t.spread_cost = 0 →
        (Fees.apply_fees_row c minf uv sig kb t).fees = minf
        ∧ minf ≤ (Fees.apply_fees_row c minf uv sig kb t).total_cost) := by
  constructor
  · intro t ht
    obtain ⟨t0, _, rfl⟩ := List.mem_map.mp ht
    show minf ≤ (Fees.apply_fees_row c minf uv sig kb t0).fees
    simp only [Fees.apply_fees_row, if_pos hm]
    exact le_max_right _ _
  · intro t hq hn hsp
    have hfees : (Fees.apply_fees_row c minf uv sig kb t).fees = minf := by
      simp [Fees.apply_fees_row, hn, if_pos hm, max_eq_right hm.le]
    refine ⟨hfees, ?_⟩
    have hvol : (Fees.apply_fees_row c minf uv sig kb t).vol_slip = 0 := by
      cases uv <;> cases sig <;> simp [Fees.apply_fees_row, hq]
    have htot : (Fees.apply_fees_row c minf uv sig kb t).total_cost =
        t.spread_cost + (Fees.apply_fees_row c minf uv sig kb t).fees +
          (Fees.apply_fees_row c minf uv sig kb t).vol_slip := rfl
    rw [htot, hfees, hvol, hsp]
    simp

/-- Witness for C10 on a trade table with a zero-quantity row,
`commission_bps = 5` and `min_fee_abs = 2`. -/
theorem min_fee_floor_witness :
    (0:ℚ) < 2 ∧
    ((∀ t ∈ Fees.apply_fees Ex.tradesWithZeroRow 5 2 false none 0, (2:ℚ) ≤ t.fees)
    ∧ (∀ t : Execution.TradeRecord ℕ, t.q = 0 → t.notional_abs = 0 →
        t.spread_cost = 0 →
        (Fees.apply_fees_row 5 2 false none 0 t).fees = 2
        ∧ (2:ℚ) ≤ (Fees.apply_fees_row 5 2 false none 0 t).total_cost)) :=
  ⟨by simp, min_fee_floor Ex.tradesWithZeroRow 5 2 false none 0 (by simp)⟩

/-! ## Claim C9 — zero-friction identity -/

/-- Claim C9: with a zero spread column and all fee parameters zero, every
row of `apply_fees (apply_execution ...)` has `p_exec = p_ref` and
`total_cost = 0`. -/
theorem zero_friction {K : Type} (P : Execution.Panel K) (pref sc : K → ℚ)
    (orders : List (K × ℚ)) (als : Bool) (lot : ℤ)
    (trades : List (Execution.TradeRecord K))
    (href : P.exec_ref_tplus1 = some pref) (hsc : P.spread_cs = some sc)
    (hz : ∀ k, sc k = 0)
    (hok : Execution.apply_execution P orders true true none als lot =
      Except.ok trades) :
    ∀ t ∈ Fees.apply_fees trades 0 0 false none 0,
      t.p_exec = t.p_ref ∧ t.total_cost = 0 := by
  simp only [Execution.apply_execution, href, hsc, if_true, Except.ok.injEq] at hok
  subst hok
  intro t ht
  obtain ⟨t0, ht0, rfl⟩ := List.mem_map.mp ht
  obtain ⟨ko, _, rfl⟩ := List.mem_map.mp ht0
  constructor
  · show Execution.half_spread_price (pref ko.1) _ (max (sc ko.1) 0) = pref ko.1
    rw [hz ko.1, max_self]
    unfold Execution.half_spread_price
    split <;> ring
  · show _ * pref ko.1 * (1/2) * (max (sc ko.1) 0) +
      (if (0:ℚ) < 0 then _ else _ * Fees._bps_to_frac 0) + 0 = 0
    rw [hz ko.1, max_self]
    simp [Fees._bps_to_frac]

/-- Evaluation helper: on the zero-spread panel, the 10.7-share order rounds
to 10 shares executed at the reference price 100 with no spread cost. -/
theorem apply_execution_zero_spread_eval :
    Execution.apply_execution Ex.panelZeroSpread Ex.ordersA true true none false 1 =
      Except.ok Ex.tradesZeroSpread := by
  simp only [Execution.apply_execution, Ex.panelZeroSpread, Ex.ordersA,
    Ex.tradesZeroSpread, Execution.round_shares, Execution.half_spread_price]
  norm_num

/-- Witness for C9 on the zero-spread panel and the 10.7-share order. -/
theorem zero_friction_witness :
    Ex.panelZeroSpread.exec_ref_tplus1 = some (fun _ => 100) ∧
    Ex.panelZeroSpread.spread_cs = some (fun _ => 0) ∧
    (∀ k : ℕ, (fun _ : ℕ => (0:ℚ)) k = 0) ∧
    Execution.apply_execution Ex.panelZeroSpread Ex.ordersA true true none false 1 =
      Except.ok Ex.tradesZeroSpread ∧
    ∀ t ∈ Fees.apply_fees Ex.tradesZeroSpread 0 0 false none 0,
      t.p_exec = t.p_ref ∧ t.total_cost = 0 :=
  ⟨rfl, rfl, fun _ => rfl, apply_execution_zero_spread_eval,
    zero_friction Ex.panelZeroSpread (fun _ => 100) (fun _ => 0) Ex.ordersA false 1
      Ex.tradesZeroSpread rfl rfl (fun _ => rfl) apply_execution_zero_spread_eval⟩

/-! ## Claim C3 — no lookahead into interval-t open/close -/

/-- Claim C3: with `use_tplus1 = true`, the trade table returned by
`apply_execution` depends on the price panel only through `exec_ref_tplus1`
and `spread_cs`; two panels agreeing on those columns — however their
`open`/`close` columns differ — yield identical output. -/
theorem no_lookahead {K : Type} (P1 P2 : Execution.Panel K)
    (orders : List (K × ℚ)) (ucs : Bool) (fsb : Option ℚ) (als : Bool)
    (lot : ℤ) (href : P1.exec_ref_tplus1 = P2.exec_ref_tplus1)
    (hsc : P1.spread_cs = P2.spread_cs) :
    Execution.apply_execution P1 orders true ucs fsb als lot =
      Execution.apply_execution P2 orders true ucs fsb als lot := by
  unfold Execution.apply_execution
  rw [href, hsc]
  simp only [eq_self_iff_true, if_true]

/-- Witness for C3: `panelA` and `panelB` share reference price and spread
but have different open columns (99.5 vs 200) and close columns (99 vs
absent); the trade tables coincide. -/
theorem no_lookahead_witness :
    Ex.panelA.exec_ref_tplus1 = Ex.panelB.exec_ref_tplus1 ∧
    Ex.panelA.spread_cs = Ex.panelB.spread_cs ∧
    Execution.apply_execution Ex.panelA Ex.ordersA true true none false 1 =
      Execution.apply_execution Ex.panelB Ex.ordersA true true none false 1 :=
  ⟨rfl, rfl, no_lookahead Ex.panelA Ex.panelB Ex.ordersA true none false 1 rfl rfl⟩

/-! ## Claim C1 — per-step value reconciliation -/

/-- Claim C1: the per-step value reconciliation can never be established on
the code: every `step` call aborts with a `TypeError` at the fee
aggregation of `portfolio.py` line 49 (`float()` of the DataFrame that
`apply_fees` returns), for all states, prices, weights and fee settings —
no post-step value exists, so in particular none reconciling with
`value_pre_rebalance - total_fees`. -/
theorem step_fee_cast_raises {n : ℕ} (als : Bool) (cb : ℚ) (uv : Bool)
    (sig : Option (Fin n → ℚ)) (kb : ℚ) (st : Portfolio.PState n)
    (px_t mark1 ref1 spread1 w_target : Fin n → ℚ) :
    (∃ e, Portfolio.step als cb uv sig kb st px_t mark1 ref1 spread1 w_target
      = Except.error e)
    ∧ ∀ out : Portfolio.StepOut n,
        Portfolio.step als cb uv sig kb st px_t mark1 ref1 spread1 w_target ≠
          Except.ok out :=
  ⟨⟨_, rfl⟩, fun _ h => Except.noConfusion h⟩

/-! ## Claim C2 — end-of-step state invariant -/

/-- Claim C2: there is no end of step at which the invariant could hold: at
the concrete single-asset input (cash 1000, mark = reference price 100,
2% spread, full target weight, zero fee settings) the `step` call fails
with the `TypeError` from `float()` of the fee DataFrame before the state
update lines 52-55 run — as it does on every input. -/
theorem step_state_update_unreachable :
    Portfolio.step false 0 false none 0 Ex.st0 Ex.mark100 Ex.mark100
      Ex.mark100 Ex.spreadPos Ex.wOne =
      Except.error
        "TypeError: float() argument must be a string or a real number, not DataFrame" :=
  rfl

end DrlFinance
